/-
Verification development for the e-commerce backend in src/index.js.

The backend is an Express/Mongoose application.  We embed the request
handlers as pure Lean functions over an explicit store state:
  * the Users collection is a list of user records (insertion order),
  * the Product collection is a list of product records (insertion order),
  * a JavaScript object used as a cart is a map from the numeric key
    (a JS number, modelled as a rational) to a quantity (a JS number;
    the handlers only ever store integral quantities, modelled as Int
    so that non-negativity is a real statement),
  * request-body fields that the code inspects with JS truthiness are
    modelled by a small JS-value type.

External collaborators (the jsonwebtoken and bcryptjs libraries) are not
part of the repository; they are modelled from the spec where indicated.
-/
import Mathlib

namespace ECom

/-- A JavaScript value as it can arrive in a JSON request body field.
Numbers are modelled as rationals (JSON numbers; NaN and infinities cannot
appear in JSON). -/
inductive JsVal where
  | num (q : Rat)
  | str (s : String)
  | boolean (b : Bool)
  | jsNull
  | undef
deriving DecidableEq

/-- JS truthiness of a value, as used by checks such as `if (!productId)`:
0, the empty string, false, null and undefined are falsy. -/
def jsTruthy : JsVal → Bool
  | .num q => q != 0
  | .str s => s != ""
  | .boolean b => b
  | .jsNull => false
  | .undef => false

/-- A cart object: JS object keyed by the (stringified) numeric product id.
Distinct JS numbers stringify to distinct keys, so keying by the rational
itself is faithful.  `none` means the key is absent from the object. -/
abbrev Cart := Rat → Option Int

def emptyCart : Cart := fun _ => none

/-- Mirrors a JS assignment `cart[k] = v`. -/
def cartSet (c : Cart) (k : Rat) (v : Int) : Cart :=
  fun j => if j = k then some v else c j

/-- Mirrors a JS `delete cart[k]`. -/
def cartErase (c : Cart) (k : Rat) : Cart :=
  fun j => if j = k then none else c j

/-- The quantity a cart holds for a key, reading absence as 0
(mirrors `cart[p] || 0` for the integral values the handlers store). -/
def qtyOf (c : Cart) (p : Rat) : Int := (c p).getD 0

/-- The cart invariant stated in the spec: no stored quantity is negative. -/
def ValidCart (c : Cart) : Prop := ∀ k v, c k = some v → 0 ≤ v

/-- A document of the Users collection (schema at src/index.js lines
262-283).  `uid` models the MongoDB `_id`. -/
structure User where
  uid : Nat
  name : String
  email : String
  password : String
  cartData : Cart
  date : Nat

/-- A document of the Product collection (schema at src/index.js lines
103-137).  `pid` models the custom numeric `id` field; `_id`-keyed removal
is not needed by the claims under study. -/
structure Product where
  pid : Int
  name : String
  image : String
  category : String
  new_price : Rat
  old_price : Rat
  available : Bool
  date : Nat

/-- The JWT payload the handlers sign: `{ user: { id: user._id } }`. -/
structure JwtPayload where
  userId : Nat
deriving DecidableEq

/-- Modelled from the spec: a token of the jsonwebtoken library (an external
collaborator, not repository code).  The spec treats signing as a perfect
cryptographic primitive, so the MAC is idealised as the injective function
sending (secret, payload) to itself: a signature ties the token to exactly
the secret and payload it was produced from, with no forgeries and no
collisions. -/
structure Token where
  payload : JwtPayload
  sig : String × JwtPayload
deriving DecidableEq

/-- Modelled from the spec: `jwt.sign(data, secret)`. -/
def jwtSign (payload : JwtPayload) (secret : String) : Token :=
  ⟨payload, (secret, payload)⟩

/-- Modelled from the spec: `jwt.verify(token, secret)` succeeds and returns
the embedded payload exactly when the signature was produced with the same
secret over the same payload. -/
def jwtVerify (t : Token) (secret : String) : Option JwtPayload :=
  if t.sig = (secret, t.payload) then some t.payload else none

/-- Token issuance as the signup/login handlers perform it:
`jwt.sign({ user: { id } }, JWT_SECRET)`. -/
def issue (uid : Nat) (secret : String) : Token :=
  jwtSign ⟨uid⟩ secret

/-- Modelled from the spec: `bcrypt.hash(password, salt)` of the bcryptjs
library (external collaborator); a salted one-way digest.  The claims under
study never inspect the digest. -/
def bcryptHash (salt password : String) : String :=
  salt ++ "$" ++ password

/-- An HTTP response: either the success payload or an error with the HTTP
status code and the message the handler sends. -/
inductive Resp (α : Type) where
  | ok (a : α)
  | err (status : Nat) (msg : String)

/-- The HTTP status of a response (success responses are sent with 200 by
`res.json`, except where a handler states 201 explicitly; for the claims
under study only the success/failure distinction and the failure codes
matter, so success is reported as 200 here and the 201 of /signup is noted
at its definition). -/
def Resp.status : Resp α → Nat
  | .ok _ => 200
  | .err s _ => s

def Resp.isOk : Resp α → Bool
  | .ok _ => true
  | .err _ _ => false

/-- Result of the `fetchUser` middleware: the resolved user id or a 401. -/
inductive AuthResult where
  | ok (uid : Nat)
  | fail (status : Nat) (msg : String)
deriving DecidableEq

def msgTokenMissing : String :=
  "Please authenticate using a valid token (Token missing)."

def msgTokenInvalid : String :=
  "Please authenticate using a valid token (Invalid token)."

/-- The `fetchUser` middleware (src/index.js lines 373-386): reject with 401
when no `auth-token` header is present; verify the token against the
process-wide secret and extract `data.user.id`, rejecting with 401 when
verification fails. -/
def fetchUser (secret : String) (tokenHeader : Option Token) : AuthResult :=
  match tokenHeader with
  | none => .fail 401 msgTokenMissing
  | some t =>
    match jwtVerify t secret with
    | some payload => .ok payload.userId
    | none => .fail 401 msgTokenInvalid

/-- `Users.findOne({ _id: uid })`: first document with this id. -/
def findUserById : List User → Nat → Option User
  | [], _ => none
  | u :: rest, uid => if u.uid == uid then some u else findUserById rest uid

/-- `Users.findOne({ email: email })`: first document with this email
(case-sensitive string match, as stored). -/
def findUserByEmail : List User → String → Option User
  | [], _ => none
  | u :: rest, email =>
    if u.email == email then some u else findUserByEmail rest email

/-- `Users.findOneAndUpdate({ _id: uid }, { cartData: c })`: replace the
`cartData` field of the first document matching the id, leaving every other
field and every other document unchanged. -/
def updateCartData : List User → Nat → Cart → List User
  | [], _, _ => []
  | u :: rest, uid, c =>
    if u.uid == uid then { u with cartData := c } :: rest
    else u :: updateCartData rest uid c

/-- The cart pre-population loop of /signup (src/index.js lines 298-301):
`for (let i = 1; i <= 300; i++) cart[i] = 0`. -/
def initCart : Cart :=
  ((List.range 300).map (fun i => i + 1)).foldl
    (fun (c : Cart) (i : Nat) => cartSet c (i : Rat) 0) emptyCart

/-- A fresh MongoDB `_id` for a new Users document.  Ids are opaque and
fresh; since no specified operation deletes users, the current length is
fresh. -/
def freshUid (users : List User) : Nat := users.length

def msgMissingSignupFields : String :=
  "Missing required fields (name, email, password)."

def msgDupEmail : String := "Existing user found with this Email ID."

/-- The /signup handler (src/index.js lines 286-338), sequential path:
reject 400 when a field is missing (JS-falsy, i.e. the empty string for
these string fields); reject 400 with `msgDupEmail` when `findOne` finds a
user with this email; otherwise build the 1..300 zero cart, hash the
password, save the user and return a signed token (HTTP 201).  The
duplicate-key race path (error code 11000, HTTP 409) can only fire under
concurrent signups and is outside this sequential embedding.  `products` is
the Product collection: the handler never queries it, which the unused
parameter makes visible.  `now` models `Date.now`, `salt` the fresh bcrypt
salt of this call. -/
def signup (secret : String) (now : Nat) (salt : String)
    (products : List Product)
    (name email password : String) (users : List User) :
    Resp Token × List User :=
  if name = "" ∨ email = "" ∨ password = "" then
    (.err 400 msgMissingSignupFields, users)
  else
    match findUserByEmail users email with
    | some _ => (.err 400 msgDupEmail, users)
    | none =>
      let uid := freshUid users
      let u : User :=
        ⟨uid, name, email, bcryptHash salt password, initCart, now⟩
      (.ok (issue uid secret), users ++ [u])

/-- A product-add request body, with the fields the handler destructures,
at their schema types. -/
structure ProductReq where
  name : String
  image : String
  category : String
  new_price : Rat
  old_price : Rat
deriving DecidableEq

/-- The request passes the truthiness validation of /addproduct
(`!name || !image || !category || !new_price || !old_price`). -/
def validProductReq (r : ProductReq) : Prop :=
  r.name ≠ "" ∧ r.image ≠ "" ∧ r.category ≠ "" ∧
    r.new_price ≠ 0 ∧ r.old_price ≠ 0

instance (r : ProductReq) : Decidable (validProductReq r) := by
  unfold validProductReq; infer_instance

/-- The id-allocation policy of /addproduct (src/index.js lines 148-156):
read the whole catalog, take the last-inserted record (`products.slice(-1)`)
and return its id plus one; return 1 when the catalog is empty. -/
def allocId (products : List Product) : Int :=
  match products.getLast? with
  | some p => p.pid + 1
  | none => 1

def msgMissingProductFields : String := "Missing required product fields."

def msgDupProductId : String :=
  "Product with this ID already exists. Please try a different ID or re-check the logic."

/-- The /addproduct handler (src/index.js lines 140-187): validate the
fields by truthiness, allocate the next id, save.  The save observes the
unique index on `id`: a duplicate raises error code 11000, answered with
409; otherwise the document is appended (insertion order preserved). -/
def addproduct (now : Nat) (r : ProductReq) (products : List Product) :
    Resp String × List Product :=
  if ¬ validProductReq r then
    (.err 400 msgMissingProductFields, products)
  else
    let id := allocId products
    if products.any (fun p => p.pid == id) then
      (.err 409 msgDupProductId, products)
    else
      (.ok r.name,
        products ++ [⟨id, r.name, r.image, r.category,
          r.new_price, r.old_price, true, now⟩])

/-- A sequence of non-concurrent /addproduct calls, threading the catalog. -/
def runAddProducts (now : Nat) : List ProductReq → List Product → List Product
  | [], ps => ps
  | r :: rs, ps => runAddProducts now rs (addproduct now r ps).2

def msgItemIdRequired : String := "Product ID (itemId) is required."

def msgItemIdInvalid : String :=
  "Invalid product ID. Must be a positive number."

def msgUserNotFound : String := "User not found."

def msgNotInCart : String :=
  "Product not found in cart or quantity is already 0."

/-- The cart mutation of /addtocart (src/index.js line 412):
`cart[p] = (cart[p] || 0) + 1`.  For the integral quantities involved,
`cart[p] || 0` is the stored value with absence (and 0 itself) read as 0. -/
def cartAdd (c : Cart) (p : Rat) : Cart :=
  cartSet c p (qtyOf c p + 1)

/-- The cart mutation of /removefromcart (src/index.js lines 442-451):
fail (`none`) when `!cart[p]` (key absent, or present with the falsy value
0); decrement when the quantity exceeds 1; delete the key otherwise. -/
def cartRemove (c : Cart) (p : Rat) : Option Cart :=
  match c p with
  | none => none
  | some v =>
    if v = 0 then none
    else if v > 1 then some (cartSet c p (v - 1))
    else some (cartErase c p)

/-- The /addtocart handler (src/index.js lines 389-422): `fetchUser`, then
reject 400 when `!itemId`, reject 400 when itemId is not a number or is
below 1 (in this order, as in the source), resolve the user (404 when
absent), increment, persist the whole map with `findOneAndUpdate`, return
the updated map. -/
def addtocart (secret : String) (tok : Option Token) (itemId : JsVal)
    (users : List User) : Resp Cart × List User :=
  match fetchUser secret tok with
  | .fail s m => (.err s m, users)
  | .ok uid =>
    if ¬ jsTruthy itemId then (.err 400 msgItemIdRequired, users)
    else
      match itemId with
      | .num p =>
        if p < 1 then (.err 400 msgItemIdInvalid, users)
        else
          match findUserById users uid with
          | none => (.err 404 msgUserNotFound, users)
          | some u =>
            let c := cartAdd u.cartData p
            (.ok c, updateCartData users uid c)
      | _ => (.err 400 msgItemIdInvalid, users)

/-- The /removefromcart handler (src/index.js lines 425-461): `fetchUser`,
the same itemId validation as /addtocart, resolve the user (404), reject
400 when the product has no truthy quantity recorded, otherwise decrement
or delete, persist the whole map, return it. -/
def removefromcart (secret : String) (tok : Option Token) (itemId : JsVal)
    (users : List User) : Resp Cart × List User :=
  match fetchUser secret tok with
  | .fail s m => (.err s m, users)
  | .ok uid =>
    if ¬ jsTruthy itemId then (.err 400 msgItemIdRequired, users)
    else
      match itemId with
      | .num p =>
        if p < 1 then (.err 400 msgItemIdInvalid, users)
        else
          match findUserById users uid with
          | none => (.err 404 msgUserNotFound, users)
          | some u =>
            match cartRemove u.cartData p with
            | none => (.err 400 msgNotInCart, users)
            | some c => (.ok c, updateCartData users uid c)
      | _ => (.err 400 msgItemIdInvalid, users)

/-- The /getcart handler (src/index.js lines 464-476): `fetchUser`, resolve
the user (404), return the stored map verbatim; no write occurs. -/
def getcart (secret : String) (tok : Option Token) (users : List User) :
    Resp Cart × List User :=
  match fetchUser secret tok with
  | .fail s m => (.err s m, users)
  | .ok uid =>
    match findUserById users uid with
    | none => (.err 404 msgUserNotFound, users)
    | some u => (.ok u.cartData, users)

/-- A sequential trace of cart mutations against one cart object:
`true` is an add, `false` a remove; a failed remove leaves the cart
unchanged (the handler returns 400 without writing). -/
def runCartOps (c : Cart) : List (Bool × Rat) → Cart
  | [] => c
  | (true, p) :: rest => runCartOps (cartAdd c p) rest
  | (false, p) :: rest => runCartOps ((cartRemove c p).getD c) rest

/-- Successful adds and successful removes touching key `p` along a trace,
counted against the evolving cart state (an add always succeeds; a remove
succeeds exactly when `cartRemove` does). -/
def countsAt (c : Cart) (p : Rat) : List (Bool × Rat) → Nat × Nat
  | [] => (0, 0)
  | (true, q) :: rest =>
    let n := countsAt (cartAdd c q) p rest
    (if q = p then n.1 + 1 else n.1, n.2)
  | (false, q) :: rest =>
    match cartRemove c q with
    | some c2 =>
      let n := countsAt c2 p rest
      (n.1, if q = p then n.2 + 1 else n.2)
    | none => countsAt c p rest

/-- The same sequential trace run through the HTTP handlers with one
session token, threading the Users collection. -/
def runOps (secret : String) (tok : Option Token) :
    List (Bool × Rat) → List User → List User
  | [], us => us
  | (true, p) :: rest, us =>
    runOps secret tok rest (addtocart secret tok (.num p) us).2
  | (false, p) :: rest, us =>
    runOps secret tok rest (removefromcart secret tok (.num p) us).2

/-! ### Basic lemmas about the cart primitives -/

@[simp]
theorem cartSet_self (c : Cart) (k : Rat) (v : Int) : cartSet c k v k = some v := by
  simp [cartSet]

theorem cartSet_other (c : Cart) (k j : Rat) (v : Int) (h : j ≠ k) :
    cartSet c k v j = c j := by
  simp [cartSet, h]

@[simp]
theorem cartErase_self (c : Cart) (k : Rat) : cartErase c k k = none := by
  simp [cartErase]

theorem cartErase_other (c : Cart) (k j : Rat) (h : j ≠ k) :
    cartErase c k j = c j := by
  simp [cartErase, h]

theorem qtyOf_nonneg {c : Cart} (h : ValidCart c) (p : Rat) : 0 ≤ qtyOf c p := by
  unfold qtyOf
  cases hc : c p with
  | none => simp
  | some v => simpa using h p v hc

theorem jsTruthy_num_of_one_le {p : Rat} (hp : 1 ≤ p) : jsTruthy (.num p) = true := by
  simp only [jsTruthy, bne_iff_ne, ne_eq, decide_eq_true_eq]
  intro h
  rw [h] at hp
  norm_num at hp

theorem validCart_cartAdd {c : Cart} (h : ValidCart c) (p : Rat) :
    ValidCart (cartAdd c p) := by
  intro k v hk
  unfold cartAdd cartSet at hk
  by_cases hkp : k = p
  · rw [if_pos hkp] at hk
    have h0 : 0 ≤ qtyOf c p := qtyOf_nonneg h p
    cases hk
    omega
  · rw [if_neg hkp] at hk
    exact h k v hk

/-- What a successful `cartRemove` does: untouched keys keep their value,
the quantity at the removed key drops by one, the result never stores an
explicit 0 at that key, and the non-negativity invariant survives. -/
theorem cartRemove_spec {c : Cart} {q : Rat} {c2 : Cart}
    (hrem : cartRemove c q = some c2) (hv : ValidCart c) :
    (∀ k, k ≠ q → c2 k = c k) ∧ qtyOf c2 q = qtyOf c q - 1 ∧
      c2 q ≠ some 0 ∧ ValidCart c2 ∧ 1 ≤ qtyOf c q := by
  unfold cartRemove at hrem
  split at hrem
  case _ hc => exact absurd hrem (by simp)
  case _ v hc =>
    by_cases h0 : v = 0
    · rw [if_pos h0] at hrem; exact absurd hrem (by simp)
    · rw [if_neg h0] at hrem
      have hv1 : 1 ≤ v := by
        have := hv q v hc
        omega
      have hqty : qtyOf c q = v := by simp [qtyOf, hc]
      by_cases h1 : v > 1
      · rw [if_pos h1] at hrem
        cases hrem
        refine ⟨fun k hk => cartSet_other _ _ _ _ hk, ?_, ?_, ?_, by omega⟩
        · simp [qtyOf, cartSet, hc]
        · simp only [cartSet_self, ne_eq, Option.some.injEq]
          omega
        · intro k w hk
          unfold cartSet at hk
          by_cases hkq : k = q
          · rw [if_pos hkq] at hk; cases hk; omega
          · rw [if_neg hkq] at hk; exact hv k w hk
      · rw [if_neg h1] at hrem
        cases hrem
        have hv1' : v = 1 := by omega
        refine ⟨fun k hk => cartErase_other _ _ _ hk, ?_, by simp, ?_, by omega⟩
        · simp [qtyOf, cartErase, hc, hv1']
        · intro k w hk
          unfold cartErase at hk
          by_cases hkq : k = q
          · rw [if_pos hkq] at hk; cases hk
          · rw [if_neg hkq] at hk; exact hv k w hk

theorem validCart_cartRemove {c : Cart} {q : Rat} {c2 : Cart}
    (hrem : cartRemove c q = some c2) (hv : ValidCart c) : ValidCart c2 :=
  (cartRemove_spec hrem hv).2.2.2.1

/-! ### Session tokens (claims C2 and C7) -/

/-- C2: the session token service round-trips: a token issued for a user
id and verified by the `fetchUser` middleware under the same process-wide
secret resolves to exactly that id. -/
theorem token_roundtrip (uid : Nat) (secret : String) :
    fetchUser secret (some (issue uid secret)) = AuthResult.ok uid := by
  simp [fetchUser, issue, jwtSign, jwtVerify]

/-- C7: every cart endpoint answers 401 with the token-missing message when
no `auth-token` header is presented, and 401 with the invalid-token message
when the presented token was signed under a different secret; in both cases
the Users collection is returned unchanged, and since the response is the
same for every `users` argument, no cart state influences it. -/
theorem cart_endpoints_auth_boundary (secret secret2 : String)
    (hne : secret2 ≠ secret) (uid : Nat) (item : JsVal) (users : List User) :
    addtocart secret none item users = (.err 401 msgTokenMissing, users) ∧
    removefromcart secret none item users = (.err 401 msgTokenMissing, users) ∧
    getcart secret none users = (.err 401 msgTokenMissing, users) ∧
    addtocart secret (some (issue uid secret2)) item users =
      (.err 401 msgTokenInvalid, users) ∧
    removefromcart secret (some (issue uid secret2)) item users =
      (.err 401 msgTokenInvalid, users) ∧
    getcart secret (some (issue uid secret2)) users =
      (.err 401 msgTokenInvalid, users) := by
  have hv : jwtVerify (issue uid secret2) secret = none := by
    simp [issue, jwtSign, jwtVerify, hne]
  refine ⟨rfl, rfl, rfl, ?_, ?_, ?_⟩ <;>
    simp [addtocart, removefromcart, getcart, fetchUser, hv]

/-- Witness for C7 at concrete inputs. -/
theorem cart_endpoints_auth_boundary_witness :
    ("t" : String) ≠ "s" ∧
    (addtocart "s" none (.num 5) [] = (.err 401 msgTokenMissing, []) ∧
     removefromcart "s" none (.num 5) [] = (.err 401 msgTokenMissing, []) ∧
     getcart "s" none [] = (.err 401 msgTokenMissing, []) ∧
     addtocart "s" (some (issue 0 "t")) (.num 5) [] =
       (.err 401 msgTokenInvalid, []) ∧
     removefromcart "s" (some (issue 0 "t")) (.num 5) [] =
       (.err 401 msgTokenInvalid, []) ∧
     getcart "s" (some (issue 0 "t")) [] = (.err 401 msgTokenInvalid, [])) :=
  ⟨by decide, cart_endpoints_auth_boundary "s" "t" (by decide) 0 (.num 5) []⟩

/-! ### Signup with a duplicate email (claim C3) -/

/-- C3 counterexample: with a user whose email is "ann@x.com" already
stored, a second signup with the same email fails with HTTP status 400
(the pre-check branch of /signup), not with 409 as the claim states; the
collection is unchanged.  The 409 answer exists only in the handler's
catch of the store duplicate-key error code 11000, which the sequential
pre-check makes unreachable for non-concurrent signups. -/
theorem signup_duplicate_counterexample :
    (signup "s" 0 "x" [] "Bob" "ann@x.com" "pw"
        [⟨0, "Ann", "ann@x.com", "h", emptyCart, 0⟩]).1.status = 400 ∧
    (400 : Nat) ≠ 409 ∧
    (signup "s" 0 "x" [] "Bob" "ann@x.com" "pw"
        [⟨0, "Ann", "ann@x.com", "h", emptyCart, 0⟩]).2 =
      [⟨0, "Ann", "ann@x.com", "h", emptyCart, 0⟩] :=
  ⟨rfl, by decide, rfl⟩

/-- C3 amended: a signup whose email is already stored (case-sensitive
match, as `findOne` performs it) fails with HTTP 400 and creates no user
record. -/
theorem signup_duplicate_rejected (secret : String) (now : Nat) (salt : String)
    (products : List Product) (name email password : String)
    (users : List User) (w : User)
    (hdup : findUserByEmail users email = some w) :
    (signup secret now salt products name email password users).1.status = 400 ∧
    (signup secret now salt products name email password users).2 = users := by
  unfold signup
  by_cases h : name = "" ∨ email = "" ∨ password = ""
  · simp [h, Resp.status]
  · simp [h, hdup, Resp.status]

/-- Witness for the amended C3 at concrete inputs. -/
theorem signup_duplicate_rejected_witness :
    (signup "s" 0 "x" [] "Bob" "ann@x.com" "pw"
        [⟨0, "Ann", "ann@x.com", "h", emptyCart, 0⟩]).1.status = 400 ∧
    (signup "s" 0 "x" [] "Bob" "ann@x.com" "pw"
        [⟨0, "Ann", "ann@x.com", "h", emptyCart, 0⟩]).2 =
      [⟨0, "Ann", "ann@x.com", "h", emptyCart, 0⟩] :=
  signup_duplicate_rejected "s" 0 "x" [] "Bob" "ann@x.com" "pw"
    [⟨0, "Ann", "ann@x.com", "h", emptyCart, 0⟩]
    ⟨0, "Ann", "ann@x.com", "h", emptyCart, 0⟩ rfl

/-! ### Removing an absent product (claim C6) -/

/-- C6: an authenticated /removefromcart call for a product whose stored
quantity is not positive (key absent, or present as the explicit 0 a fresh
account holds) fails with the 400 not-in-cart message and leaves the Users
collection untouched. -/
theorem removefromcart_absent_rejected (secret : String) (tok : Option Token)
    (uid : Nat) (users : List User) (u : User) (p : Rat)
    (hauth : fetchUser secret tok = .ok uid)
    (hfind : findUserById users uid = some u)
    (hp : 1 ≤ p)
    (hq : u.cartData p = none ∨ u.cartData p = some 0) :
    removefromcart secret tok (.num p) users = (.err 400 msgNotInCart, users) := by
  have ht := jsTruthy_num_of_one_le hp
  have h1 : ¬ p < 1 := not_lt.mpr hp
  have hrem : cartRemove u.cartData p = none := by
    rcases hq with h | h <;> simp [cartRemove, h]
  unfold removefromcart
  rw [hauth]
  simp [ht, h1, hfind, hrem]

/-- Witness for C6 at concrete inputs: an account holding no key 5. -/
theorem removefromcart_absent_rejected_witness :
    removefromcart "s" (some (issue 7 "s")) (.num 5)
        [⟨7, "Ann", "ann@x.com", "h", emptyCart, 0⟩] =
      (.err 400 msgNotInCart, [⟨7, "Ann", "ann@x.com", "h", emptyCart, 0⟩]) :=
  removefromcart_absent_rejected "s" (some (issue 7 "s")) 7
    [⟨7, "Ann", "ann@x.com", "h", emptyCart, 0⟩]
    ⟨7, "Ann", "ann@x.com", "h", emptyCart, 0⟩ 5 rfl rfl (by norm_num)
    (Or.inl rfl)

/-! ### What the handlers do on the success paths (bridging lemmas) -/

/-- `findOneAndUpdate` followed by `findOne` on the same id observes the
new cart, on an otherwise identical record. -/
theorem findUserById_updateCartData (users : List User) (uid : Nat) (c : Cart)
    (u : User) (h : findUserById users uid = some u) :
    findUserById (updateCartData users uid c) uid =
      some { u with cartData := c } := by
  induction users with
  | nil => simp [findUserById] at h
  | cons hd tl ih =>
    unfold findUserById at h
    unfold updateCartData
    by_cases hh : (hd.uid == uid) = true
    · rw [if_pos hh] at h
      cases h
      rw [if_pos hh]
      unfold findUserById
      rw [if_pos hh]
    · rw [if_neg hh] at h
      rw [if_neg hh]
      unfold findUserById
      rw [if_neg hh]
      exact ih h

/-- The /addtocart success path: valid session, valid numeric itemId,
existing user.  The handler answers with, and persists, exactly
`cartAdd` of the stored map. -/
theorem addtocart_valid_step (secret : String) (tok : Option Token)
    (uid : Nat) (users : List User) (u : User) (p : Rat)
    (hauth : fetchUser secret tok = .ok uid)
    (hfind : findUserById users uid = some u) (hp : 1 ≤ p) :
    addtocart secret tok (.num p) users =
      (.ok (cartAdd u.cartData p),
        updateCartData users uid (cartAdd u.cartData p)) := by
  have ht := jsTruthy_num_of_one_le hp
  have h1 : ¬ p < 1 := not_lt.mpr hp
  unfold addtocart
  rw [hauth]
  simp [ht, h1, hfind]

/-- The /removefromcart success path: the handler answers with, and
persists, exactly the map `cartRemove` produced. -/
theorem removefromcart_step_ok (secret : String) (tok : Option Token)
    (uid : Nat) (users : List User) (u : User) (p : Rat) (c2 : Cart)
    (hauth : fetchUser secret tok = .ok uid)
    (hfind : findUserById users uid = some u) (hp : 1 ≤ p)
    (hrem : cartRemove u.cartData p = some c2) :
    removefromcart secret tok (.num p) users =
      (.ok c2, updateCartData users uid c2) := by
  have ht := jsTruthy_num_of_one_le hp
  have h1 : ¬ p < 1 := not_lt.mpr hp
  unfold removefromcart
  rw [hauth]
  simp [ht, h1, hfind, hrem]

/-- The /removefromcart failure path: when `cartRemove` fails, the handler
answers 400 and writes nothing. -/
theorem removefromcart_step_fail (secret : String) (tok : Option Token)
    (uid : Nat) (users : List User) (u : User) (p : Rat)
    (hauth : fetchUser secret tok = .ok uid)
    (hfind : findUserById users uid = some u) (hp : 1 ≤ p)
    (hrem : cartRemove u.cartData p = none) :
    removefromcart secret tok (.num p) users = (.err 400 msgNotInCart, users) := by
  have ht := jsTruthy_num_of_one_le hp
  have h1 : ¬ p < 1 := not_lt.mpr hp
  unfold removefromcart
  rw [hauth]
  simp [ht, h1, hfind, hrem]

/-! ### Item-id validation of /addtocart (claim C5) -/

/-- C5 counterexample: the validation `typeof productId !== 'number' ||
productId < 1` accepts every number at least 1, integral or not.  With the
non-integer itemId 3/2 (JSON `1.5`) an authenticated /addtocart call
succeeds (status 200, not 400) and stores quantity 1 under the key 3/2,
so the claim that every non-positive-integer itemId is rejected is false. -/
theorem addtocart_noninteger_counterexample :
    (¬ ∃ n : Nat, (n : Rat) = 3 / 2) ∧
    (addtocart "s" (some (issue 0 "s")) (.num (3 / 2))
        [⟨0, "Ann", "ann@x.com", "h", emptyCart, 0⟩]).1.status = 200 ∧
    (∃ u, findUserById
        (addtocart "s" (some (issue 0 "s")) (.num (3 / 2))
          [⟨0, "Ann", "ann@x.com", "h", emptyCart, 0⟩]).2 0 = some u ∧
      u.cartData (3 / 2) = some 1) := by
  have hstep := addtocart_valid_step "s" (some (issue 0 "s")) 0
    [⟨0, "Ann", "ann@x.com", "h", emptyCart, 0⟩]
    ⟨0, "Ann", "ann@x.com", "h", emptyCart, 0⟩ (3 / 2) rfl rfl (by norm_num)
  refine ⟨?_, ?_, ?_⟩
  · rintro ⟨n, hn⟩
    have h2 : (2 : Rat) * (n : Rat) = 3 := by rw [hn]; norm_num
    have h3 : ((2 * n : Nat) : Rat) = ((3 : Nat) : Rat) := by push_cast; exact h2
    have h4 : 2 * n = 3 := Nat.cast_injective h3
    omega
  · rw [hstep]
    rfl
  · refine ⟨⟨0, "Ann", "ann@x.com", "h", cartAdd emptyCart (3 / 2), 0⟩, ?_, ?_⟩
    · rw [hstep]
      exact findUserById_updateCartData
        [⟨0, "Ann", "ann@x.com", "h", emptyCart, 0⟩] 0 (cartAdd emptyCart (3 / 2))
        ⟨0, "Ann", "ann@x.com", "h", emptyCart, 0⟩ rfl
    · simp [cartAdd, qtyOf, emptyCart]

/-- C5 amended: an authenticated /addtocart call whose itemId is anything
other than a number at least 1 (so 0, -1, strings, booleans, null,
undefined) fails with HTTP 400 and leaves the Users collection unchanged;
non-integer numbers at least 1 pass the check. -/
theorem addtocart_invalid_item_rejected (secret : String) (tok : Option Token)
    (uid : Nat) (v : JsVal) (users : List User)
    (hauth : fetchUser secret tok = .ok uid)
    (hv : ∀ q : Rat, v = .num q → q < 1) :
    (addtocart secret tok v users).1.status = 400 ∧
    (addtocart secret tok v users).2 = users := by
  unfold addtocart
  rw [hauth]
  cases v with
  | num q =>
    have hlt := hv q rfl
    by_cases h0 : jsTruthy (.num q) <;> simp [h0, hlt, Resp.status]
  | str s => by_cases h0 : jsTruthy (.str s) <;> simp [h0, Resp.status]
  | boolean b => cases b <;> simp [jsTruthy, Resp.status]
  | jsNull => simp [jsTruthy, Resp.status]
  | undef => simp [jsTruthy, Resp.status]

/-- Witness for the amended C5 at the boundary input itemId = -1. -/
theorem addtocart_invalid_item_rejected_witness :
    (addtocart "s" (some (issue 3 "s")) (.num (-1)) []).1.status = 400 ∧
    (addtocart "s" (some (issue 3 "s")) (.num (-1)) []).2 = [] :=
  addtocart_invalid_item_rejected "s" (some (issue 3 "s")) 3 (.num (-1)) []
    rfl (by intro q h; injection h with h; rw [← h]; norm_num)

/-! ### Cart pre-population at signup (claim C8) -/

/-- Lookup after folding zero-writes over a list of keys, as the signup
loop does. -/
theorem foldl_cartSet_apply (l : List Nat) (c0 : Cart) (k : Rat) :
    (l.foldl (fun (c : Cart) (i : Nat) => cartSet c (i : Rat) 0) c0) k =
      if ∃ i ∈ l, (i : Rat) = k then some 0 else c0 k := by
  induction l generalizing c0 with
  | nil => simp
  | cons hd tl ih =>
    rw [List.foldl_cons, ih]
    by_cases h1 : ∃ i ∈ tl, (i : Rat) = k
    · rw [if_pos h1, if_pos ⟨h1.choose, List.mem_cons_of_mem hd h1.choose_spec.1,
        h1.choose_spec.2⟩]
    · by_cases h2 : (hd : Rat) = k
      · rw [if_neg h1, if_pos ⟨hd, List.mem_cons_self hd tl, h2⟩]
        rw [← h2]
        simp [cartSet]
      · rw [if_neg h1, if_neg ?_]
        · rw [cartSet_other _ _ _ _ (fun h => h2 h.symm)]
        · rintro ⟨i, hi, hik⟩
          rcases List.mem_cons.mp hi with rfl | hi
          · exact h2 hik
          · exact h1 ⟨i, hi, hik⟩

/-- The keys the signup loop writes: 1..300. -/
def idKeys : List Nat := (List.range 300).map (fun i => i + 1)

theorem initCart_mem (k : Rat) :
    initCart k = if ∃ i ∈ idKeys, (i : Rat) = k then some 0 else none :=
  foldl_cartSet_apply idKeys emptyCart k

theorem mem_idKeys_iff (i : Nat) : i ∈ idKeys ↔ 1 ≤ i ∧ i ≤ 300 := by
  simp only [idKeys, List.mem_map, List.mem_range]
  constructor
  · rintro ⟨j, hj, rfl⟩
    omega
  · rintro ⟨h1, h2⟩
    exact ⟨i - 1, by omega, by omega⟩

/-- C8: a successful signup appends exactly one user record, whose cart is
the dense map with keys exactly 1..300, each holding quantity 0; the
Product catalog (the unused `products` argument) plays no role. -/
theorem signup_cart_prepopulated (secret : String) (now : Nat) (salt : String)
    (products : List Product) (name email password : String)
    (users : List User)
    (hn : name ≠ "") (he : email ≠ "") (hp : password ≠ "")
    (hdup : findUserByEmail users email = none) :
    (signup secret now salt products name email password users).2 =
      users ++ [⟨freshUid users, name, email, bcryptHash salt password,
        initCart, now⟩] ∧
    (∀ n : Nat, 1 ≤ n → n ≤ 300 → initCart (n : Rat) = some 0) ∧
    (∀ k : Rat, initCart k ≠ none →
      ∃ n : Nat, 1 ≤ n ∧ n ≤ 300 ∧ (n : Rat) = k) ∧
    (∀ k : Rat, initCart k = none ∨ initCart k = some 0) := by
  refine ⟨?_, ?_, ?_, ?_⟩
  · simp [signup, hn, he, hp, hdup]
  · intro n h1 h2
    rw [initCart_mem, if_pos ⟨n, (mem_idKeys_iff n).mpr ⟨h1, h2⟩, rfl⟩]
  · intro k hk
    rw [initCart_mem] at hk
    by_cases h : ∃ i ∈ idKeys, (i : Rat) = k
    · obtain ⟨i, hi, hik⟩ := h
      obtain ⟨hi1, hi2⟩ := (mem_idKeys_iff i).mp hi
      exact ⟨i, hi1, hi2, hik⟩
    · rw [if_neg h] at hk
      exact absurd rfl hk
  · intro k
    rw [initCart_mem]
    by_cases h : ∃ i ∈ idKeys, (i : Rat) = k
    · exact Or.inr (if_pos h)
    · exact Or.inl (if_neg h)

/-- Witness for C8 at the concrete signup of the spec scenario. -/
theorem signup_cart_prepopulated_witness :
    (signup "s" 0 "x" [] "Ann" "ann@x.com" "pw123" []).2 =
      [] ++ [⟨freshUid [], "Ann", "ann@x.com", bcryptHash "x" "pw123",
        initCart, 0⟩] ∧
    (∀ n : Nat, 1 ≤ n → n ≤ 300 → initCart (n : Rat) = some 0) ∧
    (∀ k : Rat, initCart k ≠ none →
      ∃ n : Nat, 1 ≤ n ∧ n ≤ 300 ∧ (n : Rat) = k) ∧
    (∀ k : Rat, initCart k = none ∨ initCart k = some 0) :=
  signup_cart_prepopulated "s" 0 "x" [] "Ann" "ann@x.com" "pw123" []
    (by decide) (by decide) (by decide) rfl

/-! ### Catalog identifier allocation (claim C4) -/

/-- The identifiers 1..k, in assignment order. -/
def idsUpTo (k : Nat) : List Int :=
  (List.range k).map (fun (i : Nat) => (i : Int) + 1)

theorem idsUpTo_succ (k : Nat) :
    idsUpTo (k + 1) = idsUpTo k ++ [(k : Int) + 1] := by
  unfold idsUpTo
  rw [List.range_succ, List.map_append]
  rfl

theorem mem_idsUpTo {x : Int} {k : Nat} (h : x ∈ idsUpTo k) :
    1 ≤ x ∧ x ≤ (k : Int) := by
  unfold idsUpTo at h
  obtain ⟨i, hi, rfl⟩ := List.mem_map.mp h
  have := List.mem_range.mp hi
  omega

/-- On a catalog whose ids are exactly 1..k in insertion order, the
scan-based allocator (last-inserted id plus one, or 1 on an empty catalog)
returns k+1. -/
theorem allocId_of_ids {products : List Product} {k : Nat}
    (h : products.map Product.pid = idsUpTo k) :
    allocId products = (k : Int) + 1 := by
  cases k with
  | zero =>
    have hnil : products = [] := by
      cases products with
      | nil => rfl
      | cons p ps => simp [idsUpTo] at h
    rw [hnil]
    rfl
  | succ k2 =>
    have hlast : products.getLast?.map Product.pid = some ((k2 : Int) + 1) := by
      rw [← List.getLast?_map, h, idsUpTo_succ, List.getLast?_concat]
    cases hp : products.getLast? with
    | none => rw [hp] at hlast; exact absurd hlast (by simp)
    | some p =>
      rw [hp] at hlast
      have hpid : p.pid = (k2 : Int) + 1 := by simpa using hlast
      unfold allocId
      rw [hp]
      show p.pid + 1 = ((k2 + 1 : Nat) : Int) + 1
      rw [hpid]
      push_cast
      ring

/-- One valid /addproduct call on a catalog with ids 1..k allocates k+1 and
appends it: the duplicate-id conflict (11000 / 409) cannot fire. -/
theorem addproduct_step (now : Nat) (r : ProductReq) {products : List Product}
    {k : Nat} (hr : validProductReq r)
    (h : products.map Product.pid = idsUpTo k) :
    (addproduct now r products).2.map Product.pid = idsUpTo (k + 1) := by
  have halloc := allocId_of_ids h
  have hany : products.any (fun p => p.pid == allocId products) = false := by
    rw [List.any_eq_false]
    intro p hp
    simp only [beq_iff_eq, halloc]
    intro heq
    have hmem : p.pid ∈ idsUpTo k := h ▸ List.mem_map_of_mem Product.pid hp
    have hb := mem_idsUpTo hmem
    omega
  simp only [addproduct]
  rw [if_neg (not_not_intro hr)]
  simp only [hany, Bool.false_eq_true, if_false]
  rw [List.map_append, h, halloc, idsUpTo_succ]
  rfl

theorem runAddProducts_ids (now : Nat) :
    ∀ (reqs : List ProductReq) (products : List Product) (k : Nat),
      (∀ r ∈ reqs, validProductReq r) →
      products.map Product.pid = idsUpTo k →
      (runAddProducts now reqs products).map Product.pid =
        idsUpTo (k + reqs.length) := by
  intro reqs
  induction reqs with
  | nil =>
    intro ps k _ h
    simpa using h
  | cons r rs ih =>
    intro ps k hv h
    have hr := hv r (List.mem_cons_self r rs)
    have hstep := addproduct_step now r hr h
    unfold runAddProducts
    rw [ih (addproduct now r ps).2 (k + 1)
      (fun x hx => hv x (List.mem_cons_of_mem r hx)) hstep]
    congr 1
    simp only [List.length_cons]
    omega

/-- C4: a sequence of non-concurrent valid /addproduct calls starting from
the empty catalog assigns the identifiers 1, 2, ..., n in order (the first
gets 1, each next one more than the previous maximum), so the assigned ids
are strictly increasing. -/
theorem addproduct_ids_sequential (now : Nat) (reqs : List ProductReq)
    (hv : ∀ r ∈ reqs, validProductReq r) :
    (runAddProducts now reqs []).map Product.pid = idsUpTo reqs.length ∧
    List.Pairwise (· < ·) ((runAddProducts now reqs []).map Product.pid) := by
  have h := runAddProducts_ids now reqs [] 0 hv (by simp [idsUpTo])
  rw [Nat.zero_add] at h
  refine ⟨h, ?_⟩
  rw [h]
  unfold idsUpTo
  rw [List.pairwise_map]
  refine List.Pairwise.imp ?_ (List.pairwise_lt_range reqs.length)
  intro a b hab
  omega

/-- Witness for C4: two concrete products get ids 1 and 2. -/
theorem addproduct_ids_sequential_witness :
    (runAddProducts 0 [⟨"Shirt", "i1", "men", 10, 20⟩,
        ⟨"Hat", "i2", "men", 5, 8⟩] []).map Product.pid = idsUpTo 2 ∧
    List.Pairwise (· < ·)
      ((runAddProducts 0 [⟨"Shirt", "i1", "men", 10, 20⟩,
          ⟨"Hat", "i2", "men", 5, 8⟩] []).map Product.pid) :=
  addproduct_ids_sequential 0 _ (by
    intro r hr
    rcases List.mem_cons.mp hr with rfl | hr2
    · exact ⟨by decide, by decide, by decide, by norm_num, by norm_num⟩
    rcases List.mem_cons.mp hr2 with rfl | hr3
    · exact ⟨by decide, by decide, by decide, by norm_num, by norm_num⟩
    · cases hr3)

/-! ### Sequential cart traces (claim C1) -/

theorem qtyOf_cartAdd (c : Cart) (q p : Rat) :
    qtyOf (cartAdd c q) p = if p = q then qtyOf c p + 1 else qtyOf c p := by
  by_cases h : p = q
  · subst h
    simp [cartAdd, qtyOf, cartSet]
  · simp [cartAdd, qtyOf, cartSet, h]

theorem cartAdd_apply_self (c : Cart) (q : Rat) :
    cartAdd c q q = some (qtyOf c q + 1) := by
  simp [cartAdd]

theorem cartAdd_apply_ne (c : Cart) (q p : Rat) (h : p ≠ q) :
    cartAdd c q p = c p :=
  cartSet_other _ _ _ _ h

/-- Behaviour of a whole sequential trace on one cart: validity is
preserved, the quantity at any key moves by exactly the number of
successful adds minus successful removes that touched it, and an explicit
stored 0 can only survive a trace untouched — it is never produced. -/
theorem runCartOps_spec (p : Rat) :
    ∀ (ops : List (Bool × Rat)) (c : Cart), ValidCart c →
      ValidCart (runCartOps c ops) ∧
      qtyOf (runCartOps c ops) p =
        qtyOf c p + ((countsAt c p ops).1 : Int) - ((countsAt c p ops).2 : Int) ∧
      (runCartOps c ops p = some 0 →
        c p = some 0 ∧ countsAt c p ops = (0, 0)) := by
  intro ops
  induction ops with
  | nil =>
    intro c hv
    refine ⟨hv, by simp [runCartOps, countsAt], fun h => ⟨h, rfl⟩⟩
  | cons op rest ih =>
    intro c hv
    obtain ⟨b, q⟩ := op
    cases b with
    | true =>
      have hv2 := validCart_cartAdd hv q
      obtain ⟨ih1, ih2, ih3⟩ := ih (cartAdd c q) hv2
      simp only [runCartOps, countsAt]
      refine ⟨ih1, ?_, ?_⟩
      · rw [ih2, qtyOf_cartAdd]
        by_cases hqp : q = p
        · subst hqp
          simp only [if_pos rfl]
          push_cast
          ring
        · rw [if_neg (fun h => hqp h.symm), if_neg hqp]
      · intro h
        obtain ⟨hc, hcount⟩ := ih3 h
        by_cases hqp : q = p
        · subst hqp
          rw [cartAdd_apply_self] at hc
          have := qtyOf_nonneg hv q
          simp only [Option.some.injEq] at hc
          omega
        · rw [cartAdd_apply_ne c q p (fun h2 => hqp h2.symm)] at hc
          rw [hcount, if_neg hqp]
          exact ⟨hc, rfl⟩
    | false =>
      cases hrem : cartRemove c q with
      | none =>
        obtain ⟨ih1, ih2, ih3⟩ := ih c hv
        simp only [runCartOps, countsAt, hrem, Option.getD_none]
        exact ⟨ih1, ih2, fun h => (ih3 h).imp id (fun hc => hc)⟩
      | some c2 =>
        obtain ⟨hother, hqty, hnz, hv2, hge1⟩ := cartRemove_spec hrem hv
        obtain ⟨ih1, ih2, ih3⟩ := ih c2 hv2
        have hq2 : qtyOf c2 p = qtyOf c p - (if p = q then 1 else 0) := by
          by_cases hpq : p = q
          · subst hpq
            simpa [if_pos rfl] using hqty
          · simp only [if_neg hpq, sub_zero, qtyOf, hother p hpq]
        simp only [runCartOps, countsAt, hrem, Option.getD_some]
        refine ⟨ih1, ?_, ?_⟩
        · rw [ih2, hq2]
          by_cases hqp : q = p
          · subst hqp
            simp only [if_pos rfl]
            push_cast
            ring
          · rw [if_neg (fun h => hqp h.symm), if_neg hqp]
            push_cast
            ring
        · intro h
          obtain ⟨hc, hcount⟩ := ih3 h
          by_cases hqp : q = p
          · subst hqp
            exact absurd hc hnz
          · rw [hother p (fun h2 => hqp h2.symm)] at hc
            rw [hcount, if_neg hqp]
            exact ⟨hc, rfl⟩

/-- Running a trace through the HTTP handlers tracks the pure cart trace:
at every step the acting user's stored record is the original one with
exactly the cart `runCartOps` computes. -/
theorem runOps_tracks (secret : String) (tok : Option Token) (uid : Nat)
    (hauth : fetchUser secret tok = .ok uid) :
    ∀ (ops : List (Bool × Rat)) (users : List User) (u : User),
      findUserById users uid = some u → ValidCart u.cartData →
      (∀ bp ∈ ops, 1 ≤ bp.2) →
      findUserById (runOps secret tok ops users) uid =
        some { u with cartData := runCartOps u.cartData ops } := by
  intro ops
  induction ops with
  | nil =>
    intro users u hfind _ _
    simpa [runOps, runCartOps] using hfind
  | cons op rest ih =>
    intro users u hfind hvc hops
    obtain ⟨b, q⟩ := op
    have hq : 1 ≤ q := hops (b, q) (List.mem_cons_self _ _)
    have hops2 : ∀ bp ∈ rest, 1 ≤ bp.2 :=
      fun bp hbp => hops bp (List.mem_cons_of_mem _ hbp)
    cases b with
    | true =>
      have hstep := addtocart_valid_step secret tok uid users u q hauth hfind hq
      simp only [runOps, runCartOps]
      rw [hstep]
      exact ih (updateCartData users uid (cartAdd u.cartData q))
        { u with cartData := cartAdd u.cartData q }
        (findUserById_updateCartData users uid (cartAdd u.cartData q) u hfind)
        (validCart_cartAdd hvc q) hops2
    | false =>
      cases hrem : cartRemove u.cartData q with
      | none =>
        have hstep := removefromcart_step_fail secret tok uid users u q
          hauth hfind hq hrem
        simp only [runOps, runCartOps, hrem, Option.getD_none]
        rw [hstep]
        exact ih users u hfind hvc hops2
      | some c2 =>
        have hspec := cartRemove_spec hrem hvc
        have hstep := removefromcart_step_ok secret tok uid users u q c2
          hauth hfind hq hrem
        simp only [runOps, runCartOps, hrem, Option.getD_some]
        rw [hstep]
        exact ih (updateCartData users uid c2) { u with cartData := c2 }
          (findUserById_updateCartData users uid c2 u hfind)
          hspec.2.2.2.1 hops2

/-- C1 counterexample: starting from the valid cart already holding
quantity 1 of product 1, one successful add and zero removes leave stored
quantity 2, while the claim predicts the clamped net count
max(1 - 0, 0) = 1.  The stored quantity follows the starting quantity plus
the net count, not the net count alone. -/
theorem cart_net_count_counterexample :
    ValidCart (cartSet emptyCart 1 1) ∧
    countsAt (cartSet emptyCart 1 1) 1 [(true, 1)] = (1, 0) ∧
    (∃ u, findUserById
        (runOps "s" (some (issue 0 "s")) [(true, 1)]
          [⟨0, "Ann", "ann@x.com", "h", cartSet emptyCart 1 1, 0⟩]) 0 = some u ∧
      u.cartData 1 = some 2) ∧
    (2 : Int) ≠ max ((1 : Int) - 0) 0 := by
  refine ⟨?_, ?_, ?_, by decide⟩
  · intro k v h
    unfold cartSet emptyCart at h
    split at h
    · cases h
      norm_num
    · exact absurd h (by simp)
  · simp [countsAt]
  · have hstep := addtocart_valid_step "s" (some (issue 0 "s")) 0
      [⟨0, "Ann", "ann@x.com", "h", cartSet emptyCart 1 1, 0⟩]
      ⟨0, "Ann", "ann@x.com", "h", cartSet emptyCart 1 1, 0⟩ 1 rfl rfl
      (le_refl 1)
    refine ⟨⟨0, "Ann", "ann@x.com", "h",
      cartAdd (cartSet emptyCart 1 1) 1, 0⟩, ?_, ?_⟩
    · show findUserById (addtocart "s" (some (issue 0 "s")) (.num 1)
        [⟨0, "Ann", "ann@x.com", "h", cartSet emptyCart 1 1, 0⟩]).2 0 = _
      rw [hstep]
      exact findUserById_updateCartData
        [⟨0, "Ann", "ann@x.com", "h", cartSet emptyCart 1 1, 0⟩] 0
        (cartAdd (cartSet emptyCart 1 1) 1)
        ⟨0, "Ann", "ann@x.com", "h", cartSet emptyCart 1 1, 0⟩ rfl
    · simp [cartAdd, qtyOf, cartSet]

/-- C1 amended: for a sequential trace of authenticated cart calls with
valid numeric item ids, the acting user's stored cart after the trace is
exactly `runCartOps` of the initial one; its quantity at any product equals
the initial quantity plus successful adds minus successful removes for that
product (so equals the net count exactly when the product started at
quantity 0 or absent); the quantity is never negative, making the clamp at
0 vacuous (removes at quantity 0 fail instead); and an explicit stored 0
can only be the pre-populated 0 of an untouched key — a quantity that
reaches 0 through a remove is deleted. -/
theorem cart_sequential_quantity (secret : String) (tok : Option Token)
    (uid : Nat) (users : List User) (u : User) (ops : List (Bool × Rat))
    (p : Rat)
    (hauth : fetchUser secret tok = .ok uid)
    (hfind : findUserById users uid = some u)
    (hvalid : ValidCart u.cartData)
    (hops : ∀ bp ∈ ops, 1 ≤ bp.2) :
    findUserById (runOps secret tok ops users) uid =
      some { u with cartData := runCartOps u.cartData ops } ∧
    qtyOf (runCartOps u.cartData ops) p =
      qtyOf u.cartData p + ((countsAt u.cartData p ops).1 : Int) -
        ((countsAt u.cartData p ops).2 : Int) ∧
    0 ≤ qtyOf (runCartOps u.cartData ops) p ∧
    (runCartOps u.cartData ops p = some 0 →
      u.cartData p = some 0 ∧ countsAt u.cartData p ops = (0, 0)) := by
  obtain ⟨h1, h2, h3⟩ := runCartOps_spec p ops u.cartData hvalid
  exact ⟨runOps_tracks secret tok uid hauth ops users u hfind hvalid hops,
    h2, qtyOf_nonneg h1 p, h3⟩

/-- Witness for the amended C1: one add of product 5 on a fresh empty
cart. -/
theorem cart_sequential_quantity_witness :
    findUserById (runOps "s" (some (issue 0 "s")) [(true, 5)]
        [⟨0, "Ann", "ann@x.com", "h", emptyCart, 0⟩]) 0 =
      some (⟨0, "Ann", "ann@x.com", "h",
        runCartOps emptyCart [(true, 5)], 0⟩ : User) ∧
    qtyOf (runCartOps emptyCart [(true, 5)]) 5 =
      qtyOf emptyCart 5 + ((countsAt emptyCart 5 [(true, 5)]).1 : Int) -
        ((countsAt emptyCart 5 [(true, 5)]).2 : Int) ∧
    0 ≤ qtyOf (runCartOps emptyCart [(true, 5)]) 5 ∧
    (runCartOps emptyCart [(true, 5)] 5 = some 0 →
      emptyCart 5 = some 0 ∧ countsAt emptyCart 5 [(true, 5)] = (0, 0)) :=
  cart_sequential_quantity "s" (some (issue 0 "s")) 0
    [⟨0, "Ann", "ann@x.com", "h", emptyCart, 0⟩]
    ⟨0, "Ann", "ann@x.com", "h", emptyCart, 0⟩ [(true, 5)] 5 rfl rfl
    (by intro k v h; simp [emptyCart] at h)
    (by
      intro bp hbp
      rcases List.mem_cons.mp hbp with rfl | hbp2
      · norm_num
      · cases hbp2)

/-! ### The non-negativity invariant across endpoints (claim C9) -/

/-- The spec invariant over the whole Users collection. -/
def ValidStore (us : List User) : Prop := ∀ u ∈ us, ValidCart u.cartData

theorem findUserById_mem :
    ∀ {us : List User} {uid : Nat} {u : User},
      findUserById us uid = some u → u ∈ us := by
  intro us
  induction us with
  | nil => intro uid u h; simp [findUserById] at h
  | cons hd tl ih =>
    intro uid u h
    unfold findUserById at h
    by_cases hh : (hd.uid == uid) = true
    · rw [if_pos hh] at h
      cases h
      exact List.mem_cons_self _ _
    · rw [if_neg hh] at h
      exact List.mem_cons_of_mem hd (ih h)

theorem validStore_updateCartData {us : List User} {uid : Nat} {c : Cart}
    (hs : ValidStore us) (hc : ValidCart c) :
    ValidStore (updateCartData us uid c) := by
  induction us with
  | nil => intro u hu; cases hu
  | cons hd tl ih =>
    unfold updateCartData
    by_cases hh : (hd.uid == uid) = true
    · rw [if_pos hh]
      intro u hu
      rcases List.mem_cons.mp hu with rfl | hu2
      · exact hc
      · exact hs u (List.mem_cons_of_mem hd hu2)
    · rw [if_neg hh]
      intro u hu
      rcases List.mem_cons.mp hu with rfl | hu2
      · exact hs u (List.mem_cons_self _ _)
      · exact ih (fun x hx => hs x (List.mem_cons_of_mem hd hx)) u hu2

/-- Every /addtocart call either leaves the collection unchanged or
persists `cartAdd` of the found user's cart. -/
theorem addtocart_snd_cases (secret : String) (tok : Option Token)
    (v : JsVal) (users : List User) :
    (addtocart secret tok v users).2 = users ∨
    ∃ uid u p, fetchUser secret tok = .ok uid ∧
      findUserById users uid = some u ∧ v = .num p ∧
      (addtocart secret tok v users).2 =
        updateCartData users uid (cartAdd u.cartData p) := by
  unfold addtocart
  cases hf : fetchUser secret tok with
  | fail s m => exact Or.inl rfl
  | ok uid =>
    dsimp only
    by_cases ht : jsTruthy v
    · rw [if_neg (by simp [ht])]
      cases v with
      | num p =>
        dsimp only
        by_cases hlt : p < 1
        · rw [if_pos hlt]
          exact Or.inl rfl
        · rw [if_neg hlt]
          cases hfind : findUserById users uid with
          | none => exact Or.inl rfl
          | some u => exact Or.inr ⟨uid, u, p, rfl, hfind, rfl, rfl⟩
      | str s => exact Or.inl rfl
      | boolean b => exact Or.inl rfl
      | jsNull => exact Or.inl rfl
      | undef => exact Or.inl rfl
    · rw [if_pos (by simp [ht])]
      exact Or.inl rfl

/-- Every /removefromcart call either leaves the collection unchanged or
persists the map a successful `cartRemove` produced. -/
theorem removefromcart_snd_cases (secret : String) (tok : Option Token)
    (v : JsVal) (users : List User) :
    (removefromcart secret tok v users).2 = users ∨
    ∃ uid u p c2, fetchUser secret tok = .ok uid ∧
      findUserById users uid = some u ∧ v = .num p ∧
      cartRemove u.cartData p = some c2 ∧
      (removefromcart secret tok v users).2 = updateCartData users uid c2 := by
  unfold removefromcart
  cases hf : fetchUser secret tok with
  | fail s m => exact Or.inl rfl
  | ok uid =>
    dsimp only
    by_cases ht : jsTruthy v
    · rw [if_neg (by simp [ht])]
      cases v with
      | num p =>
        dsimp only
        by_cases hlt : p < 1
        · rw [if_pos hlt]
          exact Or.inl rfl
        · rw [if_neg hlt]
          cases hfind : findUserById users uid with
          | none => exact Or.inl rfl
          | some u =>
            dsimp only
            cases hrem : cartRemove u.cartData p with
            | none => exact Or.inl rfl
            | some c2 => exact Or.inr ⟨uid, u, p, c2, rfl, hfind, rfl, hrem, rfl⟩
      | str s => exact Or.inl rfl
      | boolean b => exact Or.inl rfl
      | jsNull => exact Or.inl rfl
      | undef => exact Or.inl rfl
    · rw [if_pos (by simp [ht])]
      exact Or.inl rfl

theorem getcart_snd (secret : String) (tok : Option Token) (users : List User) :
    (getcart secret tok users).2 = users := by
  unfold getcart
  cases fetchUser secret tok with
  | fail s m => rfl
  | ok uid =>
    dsimp only
    cases findUserById users uid with
    | none => rfl
    | some u => rfl

/-- C9: from any collection whose carts hold no negative quantity, every
cart endpoint preserves that invariant (and /getcart writes nothing at
all). -/
theorem cart_ops_preserve_nonneg (secret : String) (tok : Option Token)
    (v : JsVal) (users : List User) (hs : ValidStore users) :
    ValidStore (addtocart secret tok v users).2 ∧
    ValidStore (removefromcart secret tok v users).2 ∧
    (getcart secret tok users).2 = users := by
  refine ⟨?_, ?_, getcart_snd secret tok users⟩
  · rcases addtocart_snd_cases secret tok v users with
      h | ⟨uid, u, p, _, hfind, _, h⟩
    · rw [h]
      exact hs
    · rw [h]
      exact validStore_updateCartData hs
        (validCart_cartAdd (hs u (findUserById_mem hfind)) p)
  · rcases removefromcart_snd_cases secret tok v users with
      h | ⟨uid, u, p, c2, _, hfind, _, hrem, h⟩
    · rw [h]
      exact hs
    · rw [h]
      exact validStore_updateCartData hs
        (validCart_cartRemove hrem (hs u (findUserById_mem hfind)))

/-- Witness for C9: an account with an empty cart; both mutations and the
read preserve the invariant. -/
theorem cart_ops_preserve_nonneg_witness :
    ValidStore (addtocart "s" (some (issue 0 "s")) (.num 1)
      [⟨0, "Ann", "ann@x.com", "h", emptyCart, 0⟩]).2 ∧
    ValidStore (removefromcart "s" (some (issue 0 "s")) (.num 1)
      [⟨0, "Ann", "ann@x.com", "h", emptyCart, 0⟩]).2 ∧
    (getcart "s" (some (issue 0 "s"))
      [⟨0, "Ann", "ann@x.com", "h", emptyCart, 0⟩]).2 =
      [⟨0, "Ann", "ann@x.com", "h", emptyCart, 0⟩] :=
  cart_ops_preserve_nonneg "s" (some (issue 0 "s")) (.num 1)
    [⟨0, "Ann", "ann@x.com", "h", emptyCart, 0⟩]
    (by
      intro u hu
      rcases List.mem_cons.mp hu with rfl | hu2
      · intro k v h
        simp [emptyCart] at h
      · cases hu2)

/-! ### The frame of the cart mutations (claim C10) -/

/-- Between two Users collections: records correspond pointwise, each
keeping uid, name, email, password hash and creation date, and any record
whose uid is not the acting one is entirely unchanged. -/
def OnlyCartChanged (uid : Nat) : List User → List User → Prop :=
  List.Forall₂ (fun u u2 =>
    u2.uid = u.uid ∧ u2.name = u.name ∧ u2.email = u.email ∧
    u2.password = u.password ∧ u2.date = u.date ∧ (u.uid ≠ uid → u2 = u))

theorem onlyCartChanged_refl (uid : Nat) (us : List User) :
    OnlyCartChanged uid us us := by
  rw [OnlyCartChanged, List.forall₂_same]
  intro u _
  exact ⟨rfl, rfl, rfl, rfl, rfl, fun _ => rfl⟩

theorem onlyCartChanged_update (uid : Nat) (us : List User) (c : Cart) :
    OnlyCartChanged uid us (updateCartData us uid c) := by
  induction us with
  | nil => exact List.Forall₂.nil
  | cons hd tl ih =>
    unfold updateCartData
    by_cases hh : (hd.uid == uid) = true
    · rw [if_pos hh]
      refine List.Forall₂.cons ⟨rfl, rfl, rfl, rfl, rfl, ?_⟩
        (onlyCartChanged_refl uid tl)
      intro hne
      exact absurd (beq_iff_eq.mp hh) hne
    · rw [if_neg hh]
      exact List.Forall₂.cons ⟨rfl, rfl, rfl, rfl, rfl, fun _ => rfl⟩ ih

/-- C10: a successful authenticated /addtocart or /removefromcart call
modifies at most the cartData field of the acting user's record; every
record keeps its uid, name, email, password hash and creation date, and
every other user's record is entirely unchanged. -/
theorem cart_ops_frame (secret : String) (tok : Option Token) (v : JsVal)
    (users : List User) (uid : Nat)
    (hauth : fetchUser secret tok = .ok uid) :
    ((∃ c, (addtocart secret tok v users).1 = .ok c) →
      OnlyCartChanged uid users (addtocart secret tok v users).2) ∧
    ((∃ c, (removefromcart secret tok v users).1 = .ok c) →
      OnlyCartChanged uid users (removefromcart secret tok v users).2) := by
  constructor
  · intro _
    rcases addtocart_snd_cases secret tok v users with
      h | ⟨uid2, u, p, hf, hfind, hv, h⟩
    · rw [h]
      exact onlyCartChanged_refl uid users
    · rw [hauth] at hf
      cases hf
      rw [h]
      exact onlyCartChanged_update uid users (cartAdd u.cartData p)
  · intro _
    rcases removefromcart_snd_cases secret tok v users with
      h | ⟨uid2, u, p, c2, hf, hfind, hv, hrem, h⟩
    · rw [h]
      exact onlyCartChanged_refl uid users
    · rw [hauth] at hf
      cases hf
      rw [h]
      exact onlyCartChanged_update uid users c2

/-- Witness for C10: a successful add of product 2 for user 0 in a
two-user collection. -/
theorem cart_ops_frame_witness :
    ((∃ c, (addtocart "s" (some (issue 0 "s")) (.num 2)
        [⟨0, "Ann", "ann@x.com", "h", emptyCart, 0⟩,
         ⟨1, "Bob", "bob@x.com", "g", emptyCart, 0⟩]).1 = .ok c) →
      OnlyCartChanged 0
        [⟨0, "Ann", "ann@x.com", "h", emptyCart, 0⟩,
         ⟨1, "Bob", "bob@x.com", "g", emptyCart, 0⟩]
        (addtocart "s" (some (issue 0 "s")) (.num 2)
          [⟨0, "Ann", "ann@x.com", "h", emptyCart, 0⟩,
           ⟨1, "Bob", "bob@x.com", "g", emptyCart, 0⟩]).2) ∧
    ((∃ c, (removefromcart "s" (some (issue 0 "s")) (.num 2)
        [⟨0, "Ann", "ann@x.com", "h", emptyCart, 0⟩,
         ⟨1, "Bob", "bob@x.com", "g", emptyCart, 0⟩]).1 = .ok c) →
      OnlyCartChanged 0
        [⟨0, "Ann", "ann@x.com", "h", emptyCart, 0⟩,
         ⟨1, "Bob", "bob@x.com", "g", emptyCart, 0⟩]
        (removefromcart "s" (some (issue 0 "s")) (.num 2)
          [⟨0, "Ann", "ann@x.com", "h", emptyCart, 0⟩,
           ⟨1, "Bob", "bob@x.com", "g", emptyCart, 0⟩]).2) :=
  cart_ops_frame "s" (some (issue 0 "s")) (.num 2)
    [⟨0, "Ann", "ann@x.com", "h", emptyCart, 0⟩,
     ⟨1, "Bob", "bob@x.com", "g", emptyCart, 0⟩] 0 rfl

end ECom
